import Mathlib

/-!
# nymgraph, `internal/view/app.go`

A shallow embedding of the tray application object `App` of nymgraph and of the
three callbacks that `App.Load` installs on the settings window.

* The settings window keeps `w.pseudonyms []*entity.Pseudonym`, a slice of
  pointers.  The callbacks read and write the records through these pointers, so
  the embedding has a memory (`Mem`) from addresses to records and the slice is a
  list of addresses.
* `App.update`, `App.Reload`, `App.Load` and `App.Close` call into the service
  layer and the GUI toolkit.  Every such call is an `Event`; the answers of the
  outside world (is the connection online, did `Dial` fail, ...) are inputs of
  the embedded functions, so that every behaviour of the collaborators is
  covered.  The embedded functions return the new `App` together with the
  events, in the order in which the code performs them.
-/

namespace Nymgraph

/-! ## Data model -/

/-- Modelled from the spec: `entity.Pseudonym`, declared outside
`internal/view/app.go`.  The code reads and writes the three fields `ID`, `Name`
and `Server`; `Name` is the key of `map[string]*HomeWindow`, `Name` and `Server`
are formatted with `%s`, and `ID` is only compared with `==`. -/
structure Pseudonym where
  ID : Int
  Name : String
  Server : String
deriving DecidableEq, Repr

/-- A value of type `*entity.Pseudonym`: the address of a record.  The callbacks
dereference the given pointer and every element they visit, so the pointers of
the embedding are the non-nil ones. -/
abbrev Ptr := Nat

/-- The records behind the addresses. -/
abbrev Mem := Ptr → Pseudonym

/-- The part of the settings window the callbacks work on: the slice
`w.pseudonyms` and the records its pointers refer to. -/
structure SettingsWindow where
  mem : Mem
  pseudonyms : List Ptr

/-- The assignment `r.Name = v` through the pointer `r`. -/
def Mem.setName (m : Mem) (r : Ptr) (v : String) : Mem :=
  fun x => if x = r then { m x with Name := v } else m x

/-- The assignment `r.Server = v` through the pointer `r`. -/
def Mem.setServer (m : Mem) (r : Ptr) (v : String) : Mem :=
  fun x => if x = r then { m x with Server := v } else m x

/-- What a menu item does when it is tapped (`MenuItem.Action`, a `func()`):
the closure of app.go:82 (settings), the closure of app.go:193 for the chat
stored under a key, or some other function. -/
inductive Callback where
  | openSettings
  | openChat (key : String)
  | other (n : Nat)
deriving DecidableEq, Repr

/-- The fields of `fyne.MenuItem` the code touches; `Action = none` is the nil
function. -/
structure MenuItem where
  Label : String
  Disabled : Bool
  Checked : Bool
  Action : Option Callback
deriving DecidableEq, Repr

/-- Modelled from the spec: the connection object returned by
`Service.NymClient.New(pseudonym)`, declared outside `internal/view/app.go`.
It is made from a pseudonym and has the field `OnCloseCallback` (here the text
the installed function prints, `none` for nil).  Its methods `IsOnline`, `Dial`
and `ListenAndServe` are answered by the outside world, see `Ext`. -/
structure ClientConnect where
  pseudonym : Pseudonym
  OnCloseCallback : Option String
deriving DecidableEq, Repr

/-- Modelled from the spec: `HomeWindow`, declared outside
`internal/view/app.go`: the per-contact chat window.  `NewHomeWindow` receives a
title, the pseudonym and the connection; `MenuItem()` and `ClientConnect()` give
the one menu item and the one connection of the window. -/
structure HomeWindow where
  title : String
  pseudonym : Pseudonym
  connect : ClientConnect
  menuItem : MenuItem
deriving DecidableEq, Repr

/-- An element of `a.menu.Items`, a `*fyne.MenuItem`: the separator and the
settings item made in `App.Load`, or the menu item of the chat window stored in
`a.openedChats` under a key. -/
inductive ItemRef where
  | separator
  | settings
  | chat (key : String)
deriving DecidableEq, Repr

/-- The map `a.openedChats : map[string]*HomeWindow`, as a list of entries. -/
abbrev Chats := List (String × HomeWindow)

/-- The read `a.openedChats[key]` with its `exists` flag. -/
def Chats.lookup (key : String) : Chats → Option HomeWindow
  | [] => none
  | (k, v) :: rest => if k = key then some v else Chats.lookup key rest

/-- The write `a.openedChats[key] = v`: replaces the entry of the key if there
is one, adds an entry otherwise. -/
def Chats.store (key : String) (v : HomeWindow) : Chats → Chats
  | [] => [(key, v)]
  | (k, x) :: rest =>
    if k = key then (k, v) :: rest else (k, x) :: Chats.store key v rest

/-- A write through the pointer found under a key: the window stored there is
changed by `f`. -/
def Chats.modify (key : String) (f : HomeWindow → HomeWindow) : Chats → Chats
  | [] => []
  | (k, x) :: rest =>
    if k = key then (k, f x) :: rest else (k, x) :: Chats.modify key f rest

/-- The keys of the map. -/
def Chats.keys (m : Chats) : List String := m.map Prod.fst

/-- The fields of `App` that the code of app.go reads and writes.  The handles
`app` and `controller` never change after `NewApp`; the mutex `mu` shows in the
events `lock` and `unlock`.  `update` and `Reload` never write through the
pointers of `a.pseudonyms`, so the list holds the records themselves. -/
structure App where
  pseudonyms : List Pseudonym
  menu : List ItemRef
  openedChats : Chats
deriving DecidableEq, Repr

/-- The calls the code makes on its collaborators and on its own shared state,
with the answers where there is one. -/
inductive Event where
  | mapLookup (key : String) (found : Bool)
  | mapStore (key : String)
  | mapRange (key : String)
  | lock
  | unlock
  | nymClientNew (p : Pseudonym)
  | newHomeWindow (title : String) (p : Pseudonym)
  | menuRefresh
  | isOnline (key : String) (online : Bool)
  | updateSelfAddress (key : String)
  | dial (key : String) (failed : Bool)
  | listenAndServe (key : String) (failed : Bool)
  | chatClose (key : String)
  | deleteHistoryAfterQuit (answer : Bool)
  | sentTruncate (failed : Bool)
  | receivedTruncate (failed : Bool)
  | println (msg : String)
  | getAll (failed : Bool)
  | stderr (msg : String)
deriving DecidableEq, Repr

/-- The answers of the outside world during one goroutine of `update`: the menu
item `NewHomeWindow` builds (if it is called), and the results of `IsOnline`,
`Dial` and `ListenAndServe` (if they are called; `true` in `dialErr` and
`listenErr` is `err != nil`). -/
structure Ext where
  menuItem : MenuItem
  online : Bool
  dialErr : Bool
  listenErr : Bool
deriving DecidableEq, Repr

/-! ## The callbacks of the settings window (app.go:90-109) -/

/-- The callback `w.OnCreate`, app.go:90-92:
`w.pseudonyms = append(w.pseudonyms, pseudonym)`. -/
def SettingsWindow.OnCreate (w : SettingsWindow) (pseudonym : Ptr) : SettingsWindow :=
  { w with pseudonyms := w.pseudonyms ++ [pseudonym] }

/-- The loop of `w.OnUpdate`, app.go:94-100, over the rest of the slice: at the
first `p` with `p.ID == pseudonym.ID` the two assignments are made through
`w.pseudonyms[i]`, which is `p`, and the loop ends. -/
def SettingsWindow.OnUpdate.loop (pseudonym : Ptr) : List Ptr → Mem → Mem
  | [], m => m
  | p :: rest, m =>
    if (m p).ID = (m pseudonym).ID then
      let m1 := m.setName p (m pseudonym).Name
      m1.setServer p (m1 pseudonym).Server
    else SettingsWindow.OnUpdate.loop pseudonym rest m

/-- The callback `w.OnUpdate`, app.go:93-101.  The slice itself is not
assigned. -/
def SettingsWindow.OnUpdate (w : SettingsWindow) (pseudonym : Ptr) : SettingsWindow :=
  { w with mem := SettingsWindow.OnUpdate.loop pseudonym w.pseudonyms w.mem }

/-- The loop of `w.OnDelete`, app.go:103-108, at index `i` with the rest of the
slice still to visit: at the first `p` with `p.ID == pseudonym.ID` the result is
`append(w.pseudonyms[:i], w.pseudonyms[i+1:]...)`; without one the slice stays. -/
def SettingsWindow.OnDelete.loop (m : Mem) (pseudonym : Ptr) (ps : List Ptr) :
    Nat → List Ptr → List Ptr
  | _, [] => ps
  | i, p :: rest =>
    if (m p).ID = (m pseudonym).ID then ps.take i ++ ps.drop (i + 1)
    else SettingsWindow.OnDelete.loop m pseudonym ps (i + 1) rest

/-- The callback `w.OnDelete`, app.go:102-109. -/
def SettingsWindow.OnDelete (w : SettingsWindow) (pseudonym : Ptr) : SettingsWindow :=
  { w with pseudonyms :=
      SettingsWindow.OnDelete.loop w.mem pseudonym w.pseudonyms 0 w.pseudonyms }

/-! ## The application object (app.go:35-212) -/

/-- The state made by `NewApp`, app.go:35-45: an empty menu `fyne.NewMenu` and an
empty map; `pseudonyms` is nil. -/
def NewApp : App :=
  { pseudonyms := [], menu := [], openedChats := [] }

/-- The method `Reload`, app.go:126-134.  The argument is what
`a.controller.Pseudonyms.GetAll()` returns: the list and the error (`none` is
nil). -/
def App.Reload (getAll : List Pseudonym × Option String) (a : App) : App × List Event :=
  match getAll.2 with
  | some err =>
    (a, [Event.getAll true, Event.stderr ("controller.Pseudonyms.GetAll: " ++ err)])
  | none =>
    ({ a with pseudonyms := getAll.1 }, [Event.getAll false])

/-- The method `Load`, app.go:81-124, up to the start of the polling goroutine:
the separator and the settings item are appended to the menu, then `Reload`. -/
def App.Load (getAll : List Pseudonym × Option String) (a : App) : App × List Event :=
  App.Reload getAll { a with menu := a.menu ++ [ItemRef.separator, ItemRef.settings] }

/-- The title given to `NewHomeWindow`, app.go:154:
`fmt.Sprintf("Connected - %s (%s)", pseudonym.Name, pseudonym.Server)`. -/
def chatTitle (pseudonym : Pseudonym) : String :=
  "Connected - " ++ pseudonym.Name ++ " (" ++ pseudonym.Server ++ ")"

/-- The assignments `openedChat.MenuItem().Action = x` and then
`openedChat.MenuItem().Disabled = d` (app.go:180-181, 187-188), for the chat
stored under the key. -/
def App.setActionThenDisabled (key : String) (x : Option Callback) (d : Bool) (a : App) : App :=
  let a1 : App := { a with openedChats := (a.openedChats.modify key
    (fun c => { c with menuItem := { c.menuItem with Action := x } })) }
  { a1 with openedChats := (a1.openedChats.modify key
    (fun c => { c with menuItem := { c.menuItem with Disabled := d } })) }

/-- The assignments `openedChat.MenuItem().Disabled = d` and then
`openedChat.MenuItem().Action = x` (app.go:192-193). -/
def App.setDisabledThenAction (key : String) (d : Bool) (x : Option Callback) (a : App) : App :=
  let a1 : App := { a with openedChats := (a.openedChats.modify key
    (fun c => { c with menuItem := { c.menuItem with Disabled := d } })) }
  { a1 with openedChats := (a1.openedChats.modify key
    (fun c => { c with menuItem := { c.menuItem with Action := x } })) }

/-- The first part of the goroutine body, app.go:146-169: the chat of the
pseudonym is looked up by `pseudonym.Name`; when there is none, a connection and
a window are made from the pseudonym, the window is stored in the map under the
mutex and its menu item is put in front of the menu. -/
def App.openChat (e : Ext) (pseudonym : Pseudonym) (a : App) : App × List Event :=
  match a.openedChats.lookup pseudonym.Name with
  | some _ => (a, [Event.mapLookup pseudonym.Name true])
  | none =>
    let connect : ClientConnect := { pseudonym := pseudonym, OnCloseCallback := none }
    let openedChat : HomeWindow :=
      { title := chatTitle pseudonym, pseudonym := pseudonym, connect := connect,
        menuItem := e.menuItem }
    let openedChat : HomeWindow :=
      { openedChat with
        connect := { openedChat.connect with OnCloseCallback := some "Connection closed" } }
    ({ a with
        openedChats := a.openedChats.store pseudonym.Name openedChat
        menu := ItemRef.chat pseudonym.Name :: a.menu },
     [Event.mapLookup pseudonym.Name false, Event.nymClientNew pseudonym,
      Event.newHomeWindow (chatTitle pseudonym) pseudonym,
      Event.lock, Event.mapStore pseudonym.Name, Event.unlock, Event.menuRefresh])

/-- The second part of the goroutine body, app.go:171-208, with the deferred
`a.menu.Refresh()` at each return. -/
def App.connectChat (e : Ext) (pseudonym : Pseudonym) (a : App) : App × List Event :=
  let key := pseudonym.Name
  if e.online then
    (a, [Event.isOnline key true, Event.updateSelfAddress key, Event.menuRefresh])
  else if e.dialErr then
    (a.setActionThenDisabled key none true,
     [Event.isOnline key false, Event.dial key true, Event.menuRefresh])
  else if e.listenErr then
    (a.setActionThenDisabled key none true,
     [Event.isOnline key false, Event.dial key false, Event.listenAndServe key true,
      Event.menuRefresh])
  else
    (a.setDisabledThenAction key false (some (Callback.openChat key)),
     [Event.isOnline key false, Event.dial key false, Event.listenAndServe key false,
      Event.menuRefresh])

/-- The body of the goroutine started for one pseudonym, app.go:142-209. -/
def App.goroutine (e : Ext) (pseudonym : Pseudonym) (a : App) : App × List Event :=
  let r1 := a.openChat e pseudonym
  let r2 := r1.1.connectChat e pseudonym
  (r2.1, r1.2 ++ r2.2)

/-- The loop of `update`, app.go:138-211, over the rest of `a.pseudonyms`.  The
`wg.Wait()` of app.go:210 is inside the loop, so the goroutine of one pseudonym
has ended before the next one starts.  `ext 0` answers the goroutine of the
first pseudonym of the rest, `ext 1` the next one, and so on. -/
def App.update.loop (ext : Nat → Ext) : List Pseudonym → App → App × List Event
  | [], a => (a, [])
  | pseudonym :: rest, a =>
    let r1 := a.goroutine (ext 0) pseudonym
    let r2 := App.update.loop (fun i => ext (i + 1)) rest r1.1
    (r2.1, r1.2 ++ r2.2)

/-- The method `update`, app.go:136-212; `ext i` answers the goroutine of
`a.pseudonyms[i]`. -/
def App.update (ext : Nat → Ext) (a : App) : App × List Event :=
  App.update.loop ext a.pseudonyms a

/-- The first `n` rounds of the polling loop of app.go:119-123,
`for ; ; time.Sleep(time.Second) { a.update() }`; `ext t` answers round `t`. -/
def App.poll (ext : Nat → Nat → Ext) : Nat → App → App × List Event
  | 0, a => (a, [])
  | n + 1, a =>
    let r1 := App.poll ext n a
    let r2 := r1.1.update (ext n)
    (r2.1, r1.2 ++ r2.2)

/-- The events of round `t` of the polling loop (rounds are counted from 0). -/
def App.tick (ext : Nat → Nat → Ext) (t : Nat) (a : App) : List Event :=
  ((App.poll ext t a).1.update (ext t)).2

/-- The first loop of `Close`, app.go:60-67: one goroutine per entry of the
map, each calling `chat.Close()`.  The order of a Go map range is not fixed and
the goroutines run side by side; the order of the list of entries stands for
the order in which the calls happen. -/
def App.Close.closeAll : Chats → List Event
  | [] => []
  | (k, _) :: rest => Event.mapRange k :: Event.chatClose k :: App.Close.closeAll rest

/-- The second part of `Close`, app.go:70-78, after `wg.Wait()`.  The arguments
are the answer of `Config.DeleteHistoryAfterQuit()` and whether
`Sent.Truncate()` and `Received.Truncate()` return an error. -/
def App.Close.truncate (deleteHistory sentErr receivedErr : Bool) : List Event :=
  if deleteHistory then
    [Event.deleteHistoryAfterQuit true, Event.sentTruncate sentErr]
      ++ (if sentErr then [] else [Event.println "Sent data cleaned"])
      ++ [Event.receivedTruncate receivedErr]
      ++ (if receivedErr then [] else [Event.println "Received/Replies data cleaned"])
  else [Event.deleteHistoryAfterQuit false]

/-- The method `Close`, app.go:58-79.  No field of `App` is assigned. -/
def App.Close (deleteHistory sentErr receivedErr : Bool) (a : App) : App × List Event :=
  (a, App.Close.closeAll a.openedChats ++ App.Close.truncate deleteHistory sentErr receivedErr)

/-- Whether an event reads, writes or ranges over `a.openedChats`. -/
def Event.touchesMap : Event → Bool
  | Event.mapLookup _ _ => true
  | Event.mapStore _ => true
  | Event.mapRange _ => true
  | _ => false

/-- Whether every event that touches `a.openedChats` happens between a `lock`
and the next `unlock`; `held` says whether `a.mu` is held at the start. -/
def heldAtEveryAccess : Bool → List Event → Bool
  | _, [] => true
  | _, Event.lock :: rest => heldAtEveryAccess true rest
  | _, Event.unlock :: rest => heldAtEveryAccess false rest
  | held, ev :: rest => (!ev.touchesMap || held) && heldAtEveryAccess held rest

/-- Whether an event is a call of `Truncate` on the sent or the received
store. -/
def Event.isTruncate : Event → Bool
  | Event.sentTruncate _ => true
  | Event.receivedTruncate _ => true
  | _ => false

/-- What identifies a chat window apart from the state of its menu item: the
title, the pseudonym and the connection it was made from. -/
def HomeWindow.madeFrom (c : HomeWindow) (p : Pseudonym) : Prop :=
  c.title = chatTitle p ∧ c.pseudonym = p ∧ c.connect.pseudonym = p

instance (c : HomeWindow) (p : Pseudonym) : Decidable (c.madeFrom p) := by
  unfold HomeWindow.madeFrom; infer_instance

/-- The same window up to the state of its menu item. -/
def HomeWindow.sameWindow (c d : HomeWindow) : Prop :=
  c.title = d.title ∧ c.pseudonym = d.pseudonym ∧ c.connect = d.connect

instance (c d : HomeWindow) : Decidable (c.sameWindow d) := by
  unfold HomeWindow.sameWindow; infer_instance

/-- The names of the pseudonyms that are not among the keys, each once, in the
order of their first pseudonym in the list. -/
def newNames (keys : List String) : List Pseudonym → List String
  | [] => []
  | p :: rest =>
    if p.Name ∈ keys then newNames keys rest
    else p.Name :: newNames (keys ++ [p.Name]) rest
/-! ## Concrete states -/

/-- A settings window whose slice holds the same pointer twice, reached by two
calls of `OnCreate` with one pointer; the records at address 0 and at the other
addresses have the same ID. -/
def aliasedWindow : SettingsWindow :=
  (SettingsWindow.OnCreate
    (SettingsWindow.OnCreate
      { mem := fun r => if r = 0 then ⟨7, "alice", "s1"⟩ else ⟨7, "bob", "s2"⟩,
        pseudonyms := [] } 0) 0)


/-- A pseudonym. -/
def alice : Pseudonym := { ID := 1, Name := "alice", Server := "127.0.0.1:1977" }

/-- A second pseudonym with the Name of `alice` and another ID and Server. -/
def alice2 : Pseudonym := { ID := 2, Name := "alice", Server := "127.0.0.1:1978" }

/-- A pseudonym with another Name. -/
def bob : Pseudonym := { ID := 3, Name := "bob", Server := "127.0.0.1:1979" }

/-- The menu item of a new chat window: enabled, not checked, no action yet. -/
def plainItem : MenuItem := { Label := "chat", Disabled := false, Checked := false, Action := none }

/-- The connection is offline and `Dial` fails. -/
def dialFails : Ext := { menuItem := plainItem, online := false, dialErr := true, listenErr := false }

/-- The connection is offline, `Dial` and `ListenAndServe` succeed. -/
def connects : Ext := { menuItem := plainItem, online := false, dialErr := false, listenErr := false }

/-- The connection is online. -/
def staysOnline : Ext := { menuItem := plainItem, online := true, dialErr := false, listenErr := false }

/-- The state after `NewApp` and `Load` when `GetAll` returns `alice` alone. -/
def loadedAlice : App := (App.Load ([alice], none) NewApp).1

/-- The state after `NewApp` and `Load` when `GetAll` returns `alice`, `alice2`
and `bob`. -/
def loadedThree : App := (App.Load ([alice, alice2, bob], none) NewApp).1

/-- A settings window with three records at the addresses 0, 1 and 2; the
records at 1, 2 and 3 have the same ID, the records from address 4 on have an
ID that no element of the slice has. -/
def threeRecords : SettingsWindow :=
  { mem := fun r =>
      if r = 0 then { ID := 1, Name := "alice", Server := "s1" }
      else if r = 1 then { ID := 2, Name := "bob", Server := "s2" }
      else if r = 2 then { ID := 2, Name := "carol", Server := "s3" }
      else if r = 3 then { ID := 2, Name := "dave", Server := "s4" }
      else { ID := 9, Name := "erin", Server := "s5" },
    pseudonyms := [0, 1, 2] }
/-! ## Theorems -/

theorem onDelete_loop_eq (m : Mem) (q : Ptr) (ps : List Ptr) :
    ∀ (rest pre : List Ptr), ps = pre ++ rest →
      SettingsWindow.OnDelete.loop m q ps pre.length rest
        = pre ++ rest.eraseP (fun p => decide ((m p).ID = (m q).ID)) := by
  intro rest
  induction rest with
  | nil => intro pre h; simp [SettingsWindow.OnDelete.loop, h]
  | cons p rest ih =>
    intro pre h
    by_cases hp : (m p).ID = (m q).ID
    · simp [SettingsWindow.OnDelete.loop, hp, h]
    · have h2 : ps = (pre ++ [p]) ++ rest := by simp [h]
      have := ih (pre ++ [p]) h2
      simp only [List.length_append, List.length_singleton] at this
      simp [SettingsWindow.OnDelete.loop, hp, this]

theorem onDelete_eq (w : SettingsWindow) (q : Ptr) :
    (w.OnDelete q).pseudonyms
      = w.pseudonyms.eraseP (fun p => decide ((w.mem p).ID = (w.mem q).ID)) := by
  have := onDelete_loop_eq w.mem q w.pseudonyms w.pseudonyms [] rfl
  simpa [SettingsWindow.OnDelete] using this

theorem onUpdate_loop_none (q : Ptr) (m : Mem) :
    ∀ ps : List Ptr, (∀ p ∈ ps, (m p).ID ≠ (m q).ID) →
      SettingsWindow.OnUpdate.loop q ps m = m := by
  intro ps
  induction ps with
  | nil => intro _; rfl
  | cons p rest ih =>
    intro h
    have hp : (m p).ID ≠ (m q).ID := h p (by simp)
    simp only [SettingsWindow.OnUpdate.loop, if_neg hp]
    exact ih (fun r hr => h r (by simp [hr]))

theorem onUpdate_loop_first (q : Ptr) (m : Mem) (p : Ptr) (l₂ : List Ptr) :
    ∀ l₁ : List Ptr, (∀ r ∈ l₁, (m r).ID ≠ (m q).ID) → (m p).ID = (m q).ID →
      SettingsWindow.OnUpdate.loop q (l₁ ++ p :: l₂) m
        = (m.setName p (m q).Name).setServer p ((m.setName p (m q).Name) q).Server := by
  intro l₁
  induction l₁ with
  | nil => intro _ hp; simp [SettingsWindow.OnUpdate.loop, hp]
  | cons r rest ih =>
    intro h hp
    have hr : (m r).ID ≠ (m q).ID := h r (by simp)
    simp only [List.cons_append, SettingsWindow.OnUpdate.loop, if_neg hr]
    exact ih (fun x hx => h x (by simp [hx])) hp

theorem setName_server_at (m : Mem) (p q : Ptr) :
    ((m.setName p (m q).Name) q).Server = (m q).Server := by
  unfold Mem.setName
  by_cases h : q = p
  · subst h; simp
  · simp [h]
/-- C5: `OnDelete` does not write to the records.  When some element of the
slice has the ID of the given pseudonym, the slice splits as `l₁ ++ p :: l₂`
with `p` the first such element, and the result is `l₁ ++ l₂`: that element is
removed, the others keep their order, the length goes down by one.  When no
element has that ID the slice is unchanged, and `OnDelete` after `OnCreate` of
the same pseudonym gives back the original slice. -/
theorem C5_onDelete_removes_first_match (w : SettingsWindow) (q : Ptr) :
    (w.OnDelete q).mem = w.mem ∧
    ((∃ p ∈ w.pseudonyms, (w.mem p).ID = (w.mem q).ID) →
      ∃ l₁ p l₂, w.pseudonyms = l₁ ++ p :: l₂ ∧ (w.mem p).ID = (w.mem q).ID ∧
        (∀ r ∈ l₁, (w.mem r).ID ≠ (w.mem q).ID) ∧
        (w.OnDelete q).pseudonyms = l₁ ++ l₂ ∧
        (w.OnDelete q).pseudonyms.length + 1 = w.pseudonyms.length) ∧
    ((∀ p ∈ w.pseudonyms, (w.mem p).ID ≠ (w.mem q).ID) →
      (w.OnDelete q).pseudonyms = w.pseudonyms ∧
      ((w.OnCreate q).OnDelete q).pseudonyms = w.pseudonyms ∧
      ((w.OnCreate q).OnDelete q).mem = w.mem) := by
  refine ⟨rfl, ?_, ?_⟩
  · rintro ⟨p, hp, hid⟩
    obtain ⟨a, l₁, l₂, h1, h2, h3, h4⟩ :=
      List.exists_of_eraseP (p := fun p => decide ((w.mem p).ID = (w.mem q).ID)) hp
        (by simpa using hid)
    refine ⟨l₁, a, l₂, h3, by simpa using h2, ?_, ?_, ?_⟩
    · intro r hr; simpa using h1 r hr
    · rw [onDelete_eq, h4]
    · rw [onDelete_eq, h4, h3]; simp; omega
  · intro h
    have e1 : w.pseudonyms.eraseP (fun p => decide ((w.mem p).ID = (w.mem q).ID))
        = w.pseudonyms := by
      apply List.eraseP_of_forall_not
      intro a ha; simpa using h a ha
    refine ⟨by rw [onDelete_eq, e1], ?_, rfl⟩
    rw [onDelete_eq]
    show (w.pseudonyms ++ [q]).eraseP _ = _
    rw [List.eraseP_append_right _ (by intro a ha; simpa using h a ha)]
    simp [SettingsWindow.OnCreate]

/-- C5 at `threeRecords`: deleting the pseudonym at address 3 removes the first element with its ID, and deleting the pseudonym at address 4 right after creating it gives back the slice. -/
theorem C5_witness :
    (∃ l₁ p l₂, threeRecords.pseudonyms = l₁ ++ p :: l₂ ∧
      (threeRecords.mem p).ID = (threeRecords.mem 3).ID ∧
      (∀ r ∈ l₁, (threeRecords.mem r).ID ≠ (threeRecords.mem 3).ID) ∧
      (threeRecords.OnDelete 3).pseudonyms = l₁ ++ l₂ ∧
      (threeRecords.OnDelete 3).pseudonyms.length + 1 = threeRecords.pseudonyms.length) ∧
    ((threeRecords.OnCreate 4).OnDelete 4).pseudonyms = threeRecords.pseudonyms :=
  ⟨(C5_onDelete_removes_first_match threeRecords 3).2.1 ⟨1, by decide, by decide⟩,
   ((C5_onDelete_removes_first_match threeRecords 4).2.2 (by decide)).2.1⟩

/-- C6, as stated, fails when the slice holds one pointer twice (two calls of
`OnCreate` with the same pointer): the first element with the ID of pseudonym 1
is at index 0, the element at index 1 is the same record, and it is changed. -/
theorem C6_counterexample :
    aliasedWindow.pseudonyms = [0, 0] ∧
    (aliasedWindow.mem 0).ID = (aliasedWindow.mem 1).ID ∧
    ¬ (∀ j r, j ≠ 0 → aliasedWindow.pseudonyms[j]? = some r →
        (aliasedWindow.OnUpdate 1).mem r = aliasedWindow.mem r) := by
  refine ⟨rfl, by decide, ?_⟩
  intro h
  have := h 1 0 (by decide) rfl
  revert this
  decide

/-- C6, amended: `OnUpdate` leaves the slice of pointers as it is, so the length
and the IDs in order stay.  When the slice splits as `l₁ ++ p :: l₂` with `p` the
first element that has the ID of the given pseudonym, the record of `p` gets the
Name and the Server of the given pseudonym and keeps its ID, and every record
other than that of `p` is unchanged, the later elements with the same ID
included when they are other records.  When no element has that ID no record
changes. -/
theorem C6_onUpdate_first_match (w : SettingsWindow) (q : Ptr) :
    (w.OnUpdate q).pseudonyms = w.pseudonyms ∧
    (w.OnUpdate q).pseudonyms.map (fun r => ((w.OnUpdate q).mem r).ID)
      = w.pseudonyms.map (fun r => (w.mem r).ID) ∧
    (∀ l₁ p l₂, w.pseudonyms = l₁ ++ p :: l₂ → (w.mem p).ID = (w.mem q).ID →
      (∀ r ∈ l₁, (w.mem r).ID ≠ (w.mem q).ID) →
      (w.OnUpdate q).mem p = { w.mem p with Name := (w.mem q).Name, Server := (w.mem q).Server } ∧
      ((w.OnUpdate q).mem q).Name = (w.mem q).Name ∧
      ((w.OnUpdate q).mem q).Server = (w.mem q).Server ∧
      ∀ r, r ≠ p → (w.OnUpdate q).mem r = w.mem r) ∧
    ((∀ p ∈ w.pseudonyms, (w.mem p).ID ≠ (w.mem q).ID) → (w.OnUpdate q).mem = w.mem) := by
  have hid : ∀ r, ((w.OnUpdate q).mem r).ID = (w.mem r).ID := by
    intro r
    by_cases hex : ∃ p ∈ w.pseudonyms, (w.mem p).ID = (w.mem q).ID
    · obtain ⟨p, hp, hpid⟩ := hex
      obtain ⟨a, l₁, l₂, h1, h2, h3, -⟩ :=
        List.exists_of_eraseP (p := fun p => decide ((w.mem p).ID = (w.mem q).ID)) hp
          (by simpa using hpid)
      have := onUpdate_loop_first q w.mem a l₂ l₁ (by intro r hr; simpa using h1 r hr)
        (by simpa using h2)
      simp only [SettingsWindow.OnUpdate, h3, this]
      unfold Mem.setServer Mem.setName
      by_cases hr : r = a <;> simp [hr]
    · push_neg at hex
      simp only [SettingsWindow.OnUpdate, onUpdate_loop_none q w.mem w.pseudonyms hex]
  refine ⟨rfl, ?_, ?_, ?_⟩
  · show w.pseudonyms.map _ = _
    exact List.map_congr_left (fun r _ => hid r)
  · intro l₁ p l₂ hl hp hno
    have := onUpdate_loop_first q w.mem p l₂ l₁ hno hp
    have hm : (w.OnUpdate q).mem
        = (w.mem.setName p (w.mem q).Name).setServer p (w.mem q).Server := by
      simp only [SettingsWindow.OnUpdate, hl, this, setName_server_at]
    rw [hm]
    refine ⟨by simp [Mem.setServer, Mem.setName], ?_, ?_, ?_⟩
    · by_cases hq : q = p <;> simp [Mem.setServer, Mem.setName, hq]
    · by_cases hq : q = p <;> simp [Mem.setServer, Mem.setName, hq]
    · intro r hr; simp [Mem.setServer, Mem.setName, hr]
  · intro h
    simp only [SettingsWindow.OnUpdate, onUpdate_loop_none q w.mem w.pseudonyms h]


/-- C6 at `threeRecords`: updating with the pseudonym at address 3 rewrites the record at address 1, the first with its ID, and leaves the record at address 2, which has the same ID. -/
theorem C6_witness :
    (threeRecords.OnUpdate 3).mem 1 = { ID := 2, Name := "dave", Server := "s4" } ∧
    (threeRecords.OnUpdate 3).mem 2 = threeRecords.mem 2 :=
  ⟨((C6_onUpdate_first_match threeRecords 3).2.2.1 [0] 1 [2] rfl (by decide) (by decide)).1,
   ((C6_onUpdate_first_match threeRecords 3).2.2.1 [0] 1 [2] rfl (by decide) (by decide)).2.2.2
      2 (by decide)⟩

/-! ### The map of open chats -/

theorem Chats.lookup_eq_none_iff (key : String) (m : Chats) :
    m.lookup key = none ↔ key ∉ m.keys := by
  induction m with
  | nil => simp [Chats.lookup, Chats.keys]
  | cons kv rest ih =>
    obtain ⟨k, v⟩ := kv
    by_cases h : k = key
    · simp [Chats.lookup, Chats.keys, h]
    · have h2 : ¬ key = k := fun e => h e.symm
      simpa [Chats.lookup, Chats.keys, h, h2] using ih

theorem Chats.store_of_lookup_none (key : String) (v : HomeWindow) (m : Chats)
    (h : m.lookup key = none) : m.store key v = m ++ [(key, v)] := by
  induction m with
  | nil => rfl
  | cons kv rest ih =>
    obtain ⟨k, x⟩ := kv
    by_cases hk : k = key
    · simp [Chats.lookup, hk] at h
    · simp only [Chats.lookup, if_neg hk] at h
      simp [Chats.store, hk, ih h]

theorem Chats.lookup_append_single (key k : String) (v : HomeWindow) (m : Chats) :
    Chats.lookup key (m ++ [(k, v)])
      = match m.lookup key with
        | some c => some c
        | none => if k = key then some v else none := by
  induction m with
  | nil => simp [Chats.lookup]
  | cons kv rest ih =>
    obtain ⟨k2, x⟩ := kv
    by_cases hk : k2 = key
    · simp [Chats.lookup, hk]
    · simpa [Chats.lookup, hk] using ih

theorem Chats.lookup_modify_self (key : String) (f : HomeWindow → HomeWindow) (m : Chats) :
    (m.modify key f).lookup key = (m.lookup key).map f := by
  induction m with
  | nil => rfl
  | cons kv rest ih =>
    obtain ⟨k, x⟩ := kv
    by_cases hk : k = key
    · simp [Chats.lookup, Chats.modify, hk]
    · simpa [Chats.lookup, Chats.modify, hk] using ih

theorem Chats.lookup_modify_ne (key k : String) (f : HomeWindow → HomeWindow) (m : Chats)
    (h : k ≠ key) : (m.modify key f).lookup k = m.lookup k := by
  induction m with
  | nil => rfl
  | cons kv rest ih =>
    obtain ⟨k2, x⟩ := kv
    by_cases hk : k2 = key
    · have h2 : ¬ k2 = k := fun e => h (e ▸ hk)
      simp only [Chats.modify, if_pos hk, Chats.lookup, if_neg h2]
    · by_cases hk2 : k2 = k
      · simp only [Chats.modify, if_neg hk, Chats.lookup, if_pos hk2]
      · simp only [Chats.modify, if_neg hk, Chats.lookup, if_neg hk2]
        exact ih

theorem Chats.keys_modify (key : String) (f : HomeWindow → HomeWindow) (m : Chats) :
    (m.modify key f).keys = m.keys := by
  induction m with
  | nil => rfl
  | cons kv rest ih =>
    obtain ⟨k, x⟩ := kv
    by_cases hk : k = key
    · simp [Chats.modify, Chats.keys, hk]
    · simpa [Chats.modify, Chats.keys, hk] using ih

theorem Chats.length_keys (m : Chats) : m.keys.length = m.length := by
  simp [Chats.keys]

/-! ### One goroutine of `update` -/

theorem connectChat_frame (e : Ext) (p : Pseudonym) (a : App) :
    (a.connectChat e p).1.pseudonyms = a.pseudonyms ∧
    (a.connectChat e p).1.menu = a.menu ∧
    (a.connectChat e p).1.openedChats.keys = a.openedChats.keys ∧
    ∀ k, k ≠ p.Name → (a.connectChat e p).1.openedChats.lookup k = a.openedChats.lookup k := by
  unfold App.connectChat App.setActionThenDisabled App.setDisabledThenAction
  cases e.online <;> cases e.dialErr <;> cases e.listenErr <;>
    simp +contextual [Chats.keys_modify, Chats.lookup_modify_ne]


theorem connectChat_self (e : Ext) (p : Pseudonym) (a : App) (c : HomeWindow)
    (h : a.openedChats.lookup p.Name = some c) :
    ∃ d, (a.connectChat e p).1.openedChats.lookup p.Name = some d ∧ d.sameWindow c ∧
      (e.online = true → d = c) ∧
      (e.online = false → (e.dialErr = true ∨ e.listenErr = true) →
        d.menuItem.Disabled = true ∧ d.menuItem.Action = none) ∧
      (e.online = false → e.dialErr = false → e.listenErr = false →
        d.menuItem.Disabled = false ∧ d.menuItem.Action = some (Callback.openChat p.Name)) := by
  unfold App.connectChat App.setActionThenDisabled App.setDisabledThenAction
  cases e.online <;> cases e.dialErr <;> cases e.listenErr <;>
    simp [Chats.lookup_modify_self, h, HomeWindow.sameWindow]

theorem openChat_found (e : Ext) (p : Pseudonym) (a : App) (c : HomeWindow)
    (h : a.openedChats.lookup p.Name = some c) :
    a.openChat e p = (a, [Event.mapLookup p.Name true]) := by
  simp [App.openChat, h]

theorem openChat_fresh (e : Ext) (p : Pseudonym) (a : App)
    (h : a.openedChats.lookup p.Name = none) :
    ∃ c, c.madeFrom p ∧ c.menuItem = e.menuItem ∧
      a.openChat e p =
        ({ a with openedChats := a.openedChats ++ [(p.Name, c)]
                  menu := ItemRef.chat p.Name :: a.menu },
         [Event.mapLookup p.Name false, Event.nymClientNew p,
          Event.newHomeWindow (chatTitle p) p,
          Event.lock, Event.mapStore p.Name, Event.unlock, Event.menuRefresh]) := by
  refine ⟨{ title := chatTitle p, pseudonym := p,
             connect := { pseudonym := p, OnCloseCallback := some "Connection closed" },
             menuItem := e.menuItem }, ⟨rfl, rfl, rfl⟩, rfl, ?_⟩
  simp only [App.openChat, h]
  rw [Chats.store_of_lookup_none _ _ _ h]

theorem openChat_frame (e : Ext) (p : Pseudonym) (a : App) :
    (a.openChat e p).1.pseudonyms = a.pseudonyms ∧
    (a.openChat e p).1.menu
      = (if p.Name ∈ a.openedChats.keys then [] else [ItemRef.chat p.Name]) ++ a.menu ∧
    (a.openChat e p).1.openedChats.keys
      = a.openedChats.keys ++ (if p.Name ∈ a.openedChats.keys then [] else [p.Name]) ∧
    (∀ k c, a.openedChats.lookup k = some c →
      (a.openChat e p).1.openedChats.lookup k = some c) ∧
    (∀ k, k ≠ p.Name → (a.openChat e p).1.openedChats.lookup k = a.openedChats.lookup k) ∧
    (∃ c, (a.openChat e p).1.openedChats.lookup p.Name = some c ∧
      (a.openedChats.lookup p.Name = none → c.madeFrom p ∧ c.menuItem = e.menuItem)) := by
  cases h : a.openedChats.lookup p.Name with
  | some c =>
    have hk : p.Name ∈ a.openedChats.keys := by
      by_contra hn
      rw [(Chats.lookup_eq_none_iff _ _).2 hn] at h
      exact absurd h (by simp)
    rw [openChat_found e p a c h]
    simp [hk, h]
  | none =>
    have hk : p.Name ∉ a.openedChats.keys := (Chats.lookup_eq_none_iff _ _).1 h
    obtain ⟨c, hc, hi, heq⟩ := openChat_fresh e p a h
    rw [heq]
    refine ⟨rfl, by simp [hk], by rw [if_neg hk]; simp [Chats.keys], ?_, ?_, ?_⟩
    · intro k d hd
      simp [Chats.lookup_append_single, hd]
    · intro k hne
      simp only [Chats.lookup_append_single]
      cases a.openedChats.lookup k with
      | some d => rfl
      | none => simp [Ne.symm hne]
    · exact ⟨c, by simp [Chats.lookup_append_single, h], fun _ => ⟨hc, hi⟩⟩

theorem goroutine_frame (e : Ext) (p : Pseudonym) (a : App) :
    (a.goroutine e p).1.pseudonyms = a.pseudonyms ∧
    (a.goroutine e p).1.menu
      = (if p.Name ∈ a.openedChats.keys then [] else [ItemRef.chat p.Name]) ++ a.menu ∧
    (a.goroutine e p).1.openedChats.keys
      = a.openedChats.keys ++ (if p.Name ∈ a.openedChats.keys then [] else [p.Name]) ∧
    (∀ k, k ≠ p.Name → (a.goroutine e p).1.openedChats.lookup k = a.openedChats.lookup k) ∧
    (∀ k c, a.openedChats.lookup k = some c →
      ∃ d, (a.goroutine e p).1.openedChats.lookup k = some d ∧ d.sameWindow c) ∧
    (∃ c, (a.goroutine e p).1.openedChats.lookup p.Name = some c ∧
      (a.openedChats.lookup p.Name = none → c.madeFrom p)) := by
  obtain ⟨o1, o2, o3, o4, o5, c, o6, o7⟩ := openChat_frame e p a
  obtain ⟨c1, c2, c3, c4⟩ := connectChat_frame e p (a.openChat e p).1
  obtain ⟨d, d1, d2, -⟩ := connectChat_self e p (a.openChat e p).1 c o6
  simp only [App.goroutine]
  refine ⟨c1.trans o1, c2.trans o2, c3.trans o3, ?_, ?_, ?_⟩
  · intro k hk; rw [c4 k hk, o5 k hk]
  · intro k x hx
    by_cases hk : k = p.Name
    · subst hk
      have : c = x := by
        have := o4 _ _ hx
        rw [o6] at this
        exact Option.some.inj this
      exact ⟨d, d1, this ▸ d2⟩
    · exact ⟨x, by rw [c4 k hk]; exact o4 _ _ hx, rfl, rfl, rfl⟩
  · refine ⟨d, d1, fun hn => ?_⟩
    obtain ⟨m1, m2, m3⟩ := (o7 hn).1
    obtain ⟨s1, s2, s3⟩ := d2
    exact ⟨s1.trans m1, s2.trans m2, by rw [s3]; exact m3⟩

theorem goroutine_events (e : Ext) (p : Pseudonym) (a : App) :
    ∃ pre, (a.openChat e p).2 = pre ∧
      pre.head? = some (Event.mapLookup p.Name (a.openedChats.lookup p.Name).isSome) ∧
      (∀ ev ∈ pre, ∀ k b, ev ≠ Event.dial k b ∧ ev ≠ Event.listenAndServe k b) ∧
      (a.goroutine e p).2 = pre ++
        (if e.online then
          [Event.isOnline p.Name true, Event.updateSelfAddress p.Name, Event.menuRefresh]
        else if e.dialErr then
          [Event.isOnline p.Name false, Event.dial p.Name true, Event.menuRefresh]
        else
          [Event.isOnline p.Name false, Event.dial p.Name false,
           Event.listenAndServe p.Name e.listenErr, Event.menuRefresh]) := by
  refine ⟨_, rfl, ?_, ?_, ?_⟩
  · unfold App.openChat
    cases a.openedChats.lookup p.Name <;> simp
  · unfold App.openChat
    cases a.openedChats.lookup p.Name <;> simp
  · simp only [App.goroutine, App.connectChat]
    cases e.online <;> cases e.dialErr <;> cases e.listenErr <;> simp

/-! ### The claims on one goroutine of `update` -/

/-- C1: in the goroutine of a pseudonym whose connection answers
`IsOnline() = false`, `Dial` is called; `ListenAndServe` is called when `Dial`
returned no error and is not called when `Dial` failed; afterwards the menu
item of the chat has `Disabled = false` and a non-nil `Action` if and only if
both calls returned no error, and has `Disabled = true` and `Action = nil` when
`Dial` failed or `Dial` succeeded and `ListenAndServe` failed. -/
theorem C1_offline_item_follows_dial_and_listen (e : Ext) (p : Pseudonym) (a : App)
    (h : e.online = false) :
    Event.isOnline p.Name false ∈ (a.goroutine e p).2 ∧
    Event.dial p.Name e.dialErr ∈ (a.goroutine e p).2 ∧
    (e.dialErr = false → Event.listenAndServe p.Name e.listenErr ∈ (a.goroutine e p).2) ∧
    (e.dialErr = true → ∀ k b, Event.listenAndServe k b ∉ (a.goroutine e p).2) ∧
    ∃ c, (a.goroutine e p).1.openedChats.lookup p.Name = some c ∧
      ((c.menuItem.Disabled = false ∧ c.menuItem.Action ≠ none)
        ↔ (e.dialErr = false ∧ e.listenErr = false)) ∧
      ((e.dialErr = true ∨ (e.dialErr = false ∧ e.listenErr = true)) →
        c.menuItem.Disabled = true ∧ c.menuItem.Action = none) := by
  obtain ⟨pre, -, -, hpre, hev⟩ := goroutine_events e p a
  obtain ⟨-, -, -, -, -, c, o6, -⟩ := openChat_frame e p a
  obtain ⟨d, d1, -, -, d3, d4⟩ := connectChat_self e p (a.openChat e p).1 c o6
  have hd : (a.goroutine e p).1.openedChats.lookup p.Name = some d := d1
  rw [hev]
  refine ⟨?_, ?_, ?_, ?_, d, hd, ?_, ?_⟩
  · cases h2 : e.dialErr <;> simp [h]
  · cases h2 : e.dialErr <;> simp [h]
  · intro h2; simp [h, h2]
  · intro h2 k b hmem
    simp only [h, h2, List.mem_append] at hmem
    rcases hmem with hmem | hmem
    · exact (hpre _ hmem k b).2 rfl
    · simp at hmem
  · cases h2 : e.dialErr <;> cases h3 : e.listenErr
    · have := d4 h h2 h3; simp [this]
    · have := d3 h (Or.inr h3); simp [this]
    · have := d3 h (Or.inl h2); simp [this]
    · have := d3 h (Or.inl h2); simp [this]
  · rintro (h2 | ⟨-, h3⟩)
    · exact d3 h (Or.inl h2)
    · exact d3 h (Or.inr h3)

/-- C1 at `loadedAlice` with a failing `Dial`: `Dial` is called and `ListenAndServe` is not. -/
theorem C1_witness :
    dialFails.online = false ∧
    Event.dial "alice" true ∈ (loadedAlice.goroutine dialFails alice).2 ∧
    ∀ k b, Event.listenAndServe k b ∉ (loadedAlice.goroutine dialFails alice).2 :=
  ⟨rfl, (C1_offline_item_follows_dial_and_listen dialFails alice loadedAlice rfl).2.1,
    (C1_offline_item_follows_dial_and_listen dialFails alice loadedAlice rfl).2.2.2.1 rfl⟩

/-- C10: in the goroutine of a pseudonym whose chat is already in the map and
whose connection answers `IsOnline() = true`, the calls are the lookup,
`IsOnline`, `UpdateSelfAddress` and the deferred `Refresh`; neither `Dial` nor
`ListenAndServe` is called, and no field of `App` changes, so the menu item of
the chat keeps its `Disabled` flag and its `Action`. -/
theorem C10_online_only_updates_address (e : Ext) (p : Pseudonym) (a : App) (c : HomeWindow)
    (hc : a.openedChats.lookup p.Name = some c) (h : e.online = true) :
    (a.goroutine e p).2 =
      [Event.mapLookup p.Name true, Event.isOnline p.Name true,
       Event.updateSelfAddress p.Name, Event.menuRefresh] ∧
    (∀ k b, Event.dial k b ∉ (a.goroutine e p).2 ∧
      Event.listenAndServe k b ∉ (a.goroutine e p).2) ∧
    (a.goroutine e p).1 = a ∧
    ∃ d, (a.goroutine e p).1.openedChats.lookup p.Name = some d ∧
      d.menuItem.Disabled = c.menuItem.Disabled ∧ d.menuItem.Action = c.menuItem.Action := by
  have hev : (a.goroutine e p).2 =
      [Event.mapLookup p.Name true, Event.isOnline p.Name true,
       Event.updateSelfAddress p.Name, Event.menuRefresh] := by
    simp [App.goroutine, openChat_found e p a c hc, App.connectChat, h]
  have hst : (a.goroutine e p).1 = a := by
    simp [App.goroutine, openChat_found e p a c hc, App.connectChat, h]
  refine ⟨hev, ?_, hst, c, by rw [hst]; exact hc, rfl, rfl⟩
  intro k b
  rw [hev]
  simp

/-- C10 at the state reached from `loadedAlice` by one goroutine with a failing `Dial`: the next goroutine, with the connection online, makes the four calls and changes nothing. -/
theorem C10_witness :
    ((loadedAlice.goroutine dialFails alice).1.goroutine staysOnline alice).2 =
      [Event.mapLookup "alice" true, Event.isOnline "alice" true,
       Event.updateSelfAddress "alice", Event.menuRefresh] ∧
    ((loadedAlice.goroutine dialFails alice).1.goroutine staysOnline alice).1
      = (loadedAlice.goroutine dialFails alice).1 :=
  ⟨(C10_online_only_updates_address staysOnline alice (loadedAlice.goroutine dialFails alice).1
      { title := chatTitle alice, pseudonym := alice,
        connect := { pseudonym := alice, OnCloseCallback := some "Connection closed" },
        menuItem := { plainItem with Disabled := true } } (by decide) rfl).1,
   (C10_online_only_updates_address staysOnline alice (loadedAlice.goroutine dialFails alice).1
      { title := chatTitle alice, pseudonym := alice,
        connect := { pseudonym := alice, OnCloseCallback := some "Connection closed" },
        menuItem := { plainItem with Disabled := true } } (by decide) rfl).2.2.1⟩

/-! ### `Reload` and `Close` -/

/-- C2: when `GetAll` returns an error, `Reload` leaves every field of `App` as
it was, `a.pseudonyms` included; when `GetAll` returns no error, `a.pseudonyms`
is the returned list and the other fields are as they were. -/
theorem C2_reload_keeps_stale_list_on_error (a : App) (ps : List Pseudonym) (err : String) :
    (a.Reload (ps, some err)).1 = a ∧
    (a.Reload (ps, none)).1.pseudonyms = ps ∧
    (a.Reload (ps, none)).1.menu = a.menu ∧
    (a.Reload (ps, none)).1.openedChats = a.openedChats :=
  ⟨rfl, rfl, rfl, rfl⟩

theorem closeAll_spec (m : Chats) :
    (∀ k ∈ m.keys, Event.chatClose k ∈ App.Close.closeAll m) ∧
    (∀ ev ∈ App.Close.closeAll m, ev.isTruncate = false) ∧
    (App.Close.closeAll m).filterMap (fun ev => match ev with
      | Event.chatClose k => some k
      | _ => none) = m.keys := by
  induction m with
  | nil => simp [App.Close.closeAll, Chats.keys]
  | cons kv rest ih =>
    obtain ⟨k, v⟩ := kv
    obtain ⟨h1, h2, h3⟩ := ih
    refine ⟨?_, ?_, ?_⟩
    · intro x hx
      simp only [Chats.keys, List.map_cons, List.mem_cons] at hx
      rcases hx with hx | hx
      · simp [App.Close.closeAll, hx]
      · simp [App.Close.closeAll, h1 x hx]
    · intro ev hev
      simp only [App.Close.closeAll, List.mem_cons] at hev
      rcases hev with hev | hev | hev
      · subst hev; rfl
      · subst hev; rfl
      · exact h2 ev hev
    · simp only [App.Close.closeAll, List.filterMap_cons, h3]
      rfl

/-- C4: the events of `Close` are the calls of `chat.Close()`, one for each
entry of `openedChats`, followed by the events of the history part; no
`Truncate` is among the former and no `chat.Close()` among the latter.  When
`DeleteHistoryAfterQuit()` is false no `Truncate` is called at all; when it is
true both `Sent.Truncate()` and `Received.Truncate()` are called, whatever
`Sent.Truncate()` returned. -/
theorem C4_close_truncates_when_configured (a : App) (deleteHistory sentErr receivedErr : Bool) :
    ∃ closing history,
      (a.Close deleteHistory sentErr receivedErr).2 = closing ++ history ∧
      (∀ k ∈ a.openedChats.keys, Event.chatClose k ∈ closing) ∧
      closing.filterMap (fun ev => match ev with
        | Event.chatClose k => some k
        | _ => none) = a.openedChats.keys ∧
      (∀ ev ∈ closing, ev.isTruncate = false) ∧
      (∀ ev ∈ history, ∀ k, ev ≠ Event.chatClose k) ∧
      (deleteHistory = false → ∀ ev ∈ history, ev.isTruncate = false) ∧
      (deleteHistory = true →
        Event.sentTruncate sentErr ∈ history ∧ Event.receivedTruncate receivedErr ∈ history) := by
  obtain ⟨h1, h2, h3⟩ := closeAll_spec a.openedChats
  refine ⟨App.Close.closeAll a.openedChats,
    App.Close.truncate deleteHistory sentErr receivedErr, rfl, h1, h3, h2, ?_, ?_, ?_⟩
  · intro ev hev k hk
    subst hk
    revert hev
    cases deleteHistory <;> cases sentErr <;> cases receivedErr <;>
      simp [App.Close.truncate]
  · intro hd ev hev
    subst hd
    simp [App.Close.truncate] at hev
    subst hev; rfl
  · intro hd
    subst hd
    cases sentErr <;> cases receivedErr <;> simp [App.Close.truncate]

/-! ### The mutex -/

/-- C8: the lookup `a.openedChats[pseudonym.Name]` of app.go:147 is the first
event of every goroutine of `update` and happens without `a.mu`; the range over
`a.openedChats` of app.go:60 in `Close` happens without `a.mu` as well.  Only the
store of app.go:165 is between `Lock` and `Unlock`: the events of a goroutine
after the lookup keep the discipline. -/
theorem C8_lookup_and_range_without_mutex :
    (∀ (e : Ext) (p : Pseudonym) (a : App),
      (a.goroutine e p).2.head? =
        some (Event.mapLookup p.Name (a.openedChats.lookup p.Name).isSome) ∧
      heldAtEveryAccess false (a.goroutine e p).2 = false ∧
      heldAtEveryAccess false (a.goroutine e p).2.tail = true) ∧
    (loadedAlice.goroutine dialFails alice).2 =
      [Event.mapLookup "alice" false, Event.nymClientNew alice,
       Event.newHomeWindow (chatTitle alice) alice,
       Event.lock, Event.mapStore "alice", Event.unlock, Event.menuRefresh,
       Event.isOnline "alice" false, Event.dial "alice" true, Event.menuRefresh] ∧
    heldAtEveryAccess false
      ((loadedAlice.goroutine dialFails alice).1.Close true false false).2 = false := by
  refine ⟨?_, by decide, by decide⟩
  intro e p a
  simp only [App.goroutine, App.openChat, App.connectChat]
  cases a.openedChats.lookup p.Name <;> cases e.online <;> cases e.dialErr <;>
    cases e.listenErr <;> simp [heldAtEveryAccess, Event.touchesMap]

/-! ### The loop of `update` -/

theorem newNames_mem (n : String) :
    ∀ (ps : List Pseudonym) (keys : List String),
      n ∈ newNames keys ps ↔ n ∉ keys ∧ ∃ p ∈ ps, p.Name = n := by
  intro ps
  induction ps with
  | nil => intro keys; simp [newNames]
  | cons p rest ih =>
    intro keys
    by_cases hp : p.Name ∈ keys
    · simp only [newNames, if_pos hp, ih keys, List.mem_cons, exists_eq_or_imp]
      constructor
      · rintro ⟨h1, h2⟩; exact ⟨h1, Or.inr h2⟩
      · rintro ⟨h1, h2 | h2⟩
        · exact absurd (h2 ▸ hp) h1
        · exact ⟨h1, h2⟩
    · simp only [newNames, if_neg hp, List.mem_cons, ih (keys ++ [p.Name]), List.mem_append,
        List.mem_singleton, exists_eq_or_imp, not_or, List.not_mem_nil, or_false]
      constructor
      · rintro (h | ⟨⟨h1, -⟩, h3⟩)
        · subst h; exact ⟨hp, Or.inl rfl⟩
        · exact ⟨h1, Or.inr h3⟩
      · rintro ⟨h1, h2 | h2⟩
        · exact Or.inl h2.symm
        · by_cases hn : n = p.Name
          · exact Or.inl hn
          · exact Or.inr ⟨⟨h1, hn⟩, h2⟩

theorem newNames_nodup :
    ∀ (ps : List Pseudonym) (keys : List String), (newNames keys ps).Nodup := by
  intro ps
  induction ps with
  | nil => intro keys; simp [newNames]
  | cons p rest ih =>
    intro keys
    by_cases hp : p.Name ∈ keys
    · simp only [newNames, if_pos hp]; exact ih keys
    · simp only [newNames, if_neg hp, List.nodup_cons]
      refine ⟨?_, ih _⟩
      intro hmem
      have := ((newNames_mem p.Name rest (keys ++ [p.Name])).1 hmem).1
      simp at this

theorem sameWindow_trans {c d x : HomeWindow} (h1 : c.sameWindow d) (h2 : d.sameWindow x) :
    c.sameWindow x :=
  ⟨h1.1.trans h2.1, h1.2.1.trans h2.2.1, h1.2.2.trans h2.2.2⟩

theorem madeFrom_of_sameWindow {c d : HomeWindow} {p : Pseudonym} (h1 : c.sameWindow d)
    (h2 : d.madeFrom p) : c.madeFrom p :=
  ⟨h1.1.trans h2.1, h1.2.1.trans h2.2.1, by rw [h1.2.2]; exact h2.2.2⟩

theorem loop_frame :
    ∀ (ps : List Pseudonym) (ext : Nat → Ext) (a : App),
      (App.update.loop ext ps a).1.pseudonyms = a.pseudonyms ∧
      (App.update.loop ext ps a).1.openedChats.keys
        = a.openedChats.keys ++ newNames a.openedChats.keys ps ∧
      (App.update.loop ext ps a).1.menu
        = ((newNames a.openedChats.keys ps).reverse.map ItemRef.chat) ++ a.menu ∧
      (∀ k c, a.openedChats.lookup k = some c →
        ∃ d, (App.update.loop ext ps a).1.openedChats.lookup k = some d ∧ d.sameWindow c) ∧
      (∀ k p, a.openedChats.lookup k = none →
        ps.find? (fun x => decide (x.Name = k)) = some p →
        ∃ d, (App.update.loop ext ps a).1.openedChats.lookup k = some d ∧ d.madeFrom p) := by
  intro ps
  induction ps with
  | nil =>
    intro ext a
    refine ⟨rfl, by simp [App.update.loop, newNames], by simp [App.update.loop, newNames],
      fun k c h => ⟨c, h, rfl, rfl, rfl⟩, ?_⟩
    intro k p _ h; simp at h
  | cons q rest ih =>
    intro ext a
    obtain ⟨g1, g2, g3, g4, g5, c0, g6, g7⟩ := goroutine_frame (ext 0) q a
    obtain ⟨i1, i2, i3, i4, i5⟩ := ih (fun i => ext (i + 1)) (a.goroutine (ext 0) q).1
    simp only [App.update.loop]
    refine ⟨i1.trans g1, ?_, ?_, ?_, ?_⟩
    · rw [i2, g3]
      by_cases hq : q.Name ∈ a.openedChats.keys
      · simp [newNames, hq]
      · simp [newNames, hq]
    · rw [i3, g2, g3]
      by_cases hq : q.Name ∈ a.openedChats.keys
      · simp [newNames, hq]
      · simp [newNames, hq]
    · intro k c hc
      obtain ⟨d, hd, hs⟩ := g5 k c hc
      obtain ⟨x, hx, hs2⟩ := i4 k d hd
      exact ⟨x, hx, sameWindow_trans hs2 hs⟩
    · intro k p hnone hfind
      by_cases hq : q.Name = k
      · have hp : p = q := by
          simp [List.find?, hq] at hfind; exact hfind.symm
        subst hp
        subst hq
        obtain ⟨x, hx, hs2⟩ := i4 p.Name c0 g6
        exact ⟨x, hx, madeFrom_of_sameWindow hs2 (g7 hnone)⟩
      · have hfind2 : rest.find? (fun x => decide (x.Name = k)) = some p := by
          simpa [List.find?, hq] using hfind
        have hnone2 : (a.goroutine (ext 0) q).1.openedChats.lookup k = none := by
          rw [g4 k (fun e => hq e.symm)]; exact hnone
        exact i5 k p hnone2 hfind2

theorem loop_lookup_of_mem :
    ∀ (ps : List Pseudonym) (ext : Nat → Ext) (a : App),
      ∀ p ∈ ps, ∃ d, (App.update.loop ext ps a).1.openedChats.lookup p.Name = some d := by
  intro ps
  induction ps with
  | nil => intro ext a p hp; simp at hp
  | cons q rest ih =>
    intro ext a p hp
    simp only [App.update.loop]
    rcases List.mem_cons.1 hp with h | h
    · subst h
      obtain ⟨-, -, -, -, -, c0, g6, -⟩ := goroutine_frame (ext 0) p a
      obtain ⟨-, -, -, i4, -⟩ := loop_frame rest (fun i => ext (i + 1)) (a.goroutine (ext 0) p).1
      obtain ⟨x, hx, -⟩ := i4 p.Name c0 g6
      exact ⟨x, hx⟩
    · exact ih _ _ p h

theorem loop_events :
    ∀ (ps : List Pseudonym) (ext : Nat → Ext) (a : App) (i : Nat) (p : Pseudonym),
      ps[i]? = some p → (ext i).online = false →
      Event.dial p.Name (ext i).dialErr ∈ (App.update.loop ext ps a).2 := by
  intro ps
  induction ps with
  | nil => intro ext a i p h; simp at h
  | cons q rest ih =>
    intro ext a i p h hoff
    simp only [App.update.loop, List.mem_append]
    cases i with
    | zero =>
      simp at h
      subst h
      left
      obtain ⟨pre, -, -, -, hev⟩ := goroutine_events (ext 0) q a
      rw [hev]
      cases h2 : (ext 0).dialErr <;> simp [hoff]
    | succ j =>
      right
      exact ih (fun i => ext (i + 1)) _ j p (by simpa using h) hoff

theorem poll_pseudonyms (ext : Nat → Nat → Ext) (a : App) :
    ∀ n, (App.poll ext n a).1.pseudonyms = a.pseudonyms := by
  intro n
  induction n with
  | zero => rfl
  | succ n ih =>
    simp only [App.poll, App.update]
    rw [(loop_frame _ _ _).1, ih]

theorem poll_menu (ext : Nat → Nat → Ext) (a : App)
    (h : a.menu = a.openedChats.keys.reverse.map ItemRef.chat
      ++ [ItemRef.separator, ItemRef.settings]) :
    ∀ n, (App.poll ext n a).1.menu = (App.poll ext n a).1.openedChats.keys.reverse.map ItemRef.chat
      ++ [ItemRef.separator, ItemRef.settings] := by
  intro n
  induction n with
  | zero => exact h
  | succ n ih =>
    simp only [App.poll, App.update]
    obtain ⟨-, h2, h3, -⟩ := loop_frame (App.poll ext n a).1.pseudonyms (ext n) (App.poll ext n a).1
    rw [h3, h2, ih]
    simp

/-! ### The claims on `update` and on the polling loop -/

/-- C3, as stated, fails: `alice2` is in the polled list, and after `update` no
entry of `openedChats` was made from it; the map has the keys "alice" and "bob",
and the entry under "alice" was made from `alice`. -/
theorem C3_counterexample :
    alice2 ∈ loadedThree.pseudonyms ∧
    (loadedThree.update (fun _ => connects)).1.openedChats.keys = ["alice", "bob"] ∧
    ¬ ∃ kc ∈ (loadedThree.update (fun _ => connects)).1.openedChats, kc.2.madeFrom alice2 := by
  decide

/-- C3, amended: after one call of `update` there is, for every pseudonym `p`
of `a.pseudonyms`, an entry in `openedChats` under the key `p.Name`.  When the
map had an entry under that key before the call, it is still that window;
otherwise the window and its connection were made from the first pseudonym of
the list whose Name is `p.Name`. -/
theorem C3_entry_under_each_name (ext : Nat → Ext) (a : App) (p : Pseudonym)
    (hp : p ∈ a.pseudonyms) :
    ∃ c, (a.update ext).1.openedChats.lookup p.Name = some c ∧
      (∀ c0, a.openedChats.lookup p.Name = some c0 → c.sameWindow c0) ∧
      (a.openedChats.lookup p.Name = none →
        ∃ q, a.pseudonyms.find? (fun x => decide (x.Name = p.Name)) = some q ∧
          q.Name = p.Name ∧ c.madeFrom q) := by
  obtain ⟨c, hc⟩ := loop_lookup_of_mem a.pseudonyms ext a p hp
  obtain ⟨-, -, -, i4, i5⟩ := loop_frame a.pseudonyms ext a
  refine ⟨c, hc, ?_, ?_⟩
  · intro c0 h0
    obtain ⟨d, hd, hs⟩ := i4 _ _ h0
    have : d = c := Option.some.inj (hd.symm.trans hc)
    exact this ▸ hs
  · intro hnone
    cases hf : a.pseudonyms.find? (fun x => decide (x.Name = p.Name)) with
    | none =>
      have := List.find?_eq_none.1 hf p hp
      simp at this
    | some q =>
      obtain ⟨d, hd, hm⟩ := i5 _ _ hnone hf
      have : d = c := Option.some.inj (hd.symm.trans hc)
      have hq := List.find?_some hf
      exact ⟨q, rfl, by simpa using hq, this ▸ hm⟩

/-- C3 at `loadedThree`: the entry under the Name of `alice2` is the window made from `alice`, the first pseudonym with that Name. -/
theorem C3_witness :
    alice2 ∈ loadedThree.pseudonyms ∧
    ∃ c, (loadedThree.update (fun _ => connects)).1.openedChats.lookup "alice" = some c ∧
      c.madeFrom alice := by
  refine ⟨by decide, ?_⟩
  obtain ⟨c, h1, -, h3⟩ :=
    C3_entry_under_each_name (fun _ => connects) loadedThree alice2 (by decide)
  obtain ⟨q, hq, -, hm⟩ := h3 (by decide)
  have : q = alice := Option.some.inj (hq.symm.trans (by decide))
  exact ⟨c, h1, this ▸ hm⟩

/-- C7, as stated, fails: with `alice` in the list and a connection that stays
offline and whose `Dial` fails, round 0 of the polling loop calls `Dial` and
disables the menu item, and round 1 calls `Dial` on that connection again. -/
theorem C7_counterexample :
    Event.dial "alice" true ∈ loadedAlice.tick (fun _ _ => dialFails) 0 ∧
    (∃ c, (loadedAlice.poll (fun _ _ => dialFails) 1).1.openedChats.lookup "alice" = some c ∧
      c.menuItem.Disabled = true ∧ c.menuItem.Action = none) ∧
    Event.dial "alice" true ∈ loadedAlice.tick (fun _ _ => dialFails) 1 := by
  refine ⟨by decide, ⟨_, rfl, rfl, rfl⟩, by decide⟩

/-- C7, amended: there is no backoff, and the polling loop itself retries.  In
every round, for every pseudonym of the list whose connection answers
`IsOnline() = false` in that round, `update` calls `Dial()` on the connection
of its chat, whatever happened in earlier rounds; a goroutine calls no `Dial()`
when `IsOnline()` answers true. -/
theorem C7_dial_again_while_offline (ext : Nat → Nat → Ext) (t : Nat) (a : App) (i : Nat)
    (p : Pseudonym) (hp : a.pseudonyms[i]? = some p) :
    ((ext t i).online = false → Event.dial p.Name (ext t i).dialErr ∈ a.tick ext t) ∧
    ((ext t i).online = true →
      ∀ (x : App) k b, Event.dial k b ∉ (x.goroutine (ext t i) p).2) := by
  constructor
  · intro hoff
    have hps : (App.poll ext t a).1.pseudonyms[i]? = some p := by
      rw [poll_pseudonyms]; exact hp
    exact loop_events _ (ext t) _ i p hps hoff
  · intro hon x k b hmem
    obtain ⟨pre, -, -, hpre, hev⟩ := goroutine_events (ext t i) p x
    rw [hev, hon] at hmem
    simp only [List.mem_append] at hmem
    rcases hmem with h | h
    · exact (hpre _ h k b).1 rfl
    · simp at h

/-- C7 at `loadedAlice` with a connection that stays offline: round 5 of the polling loop calls `Dial` again. -/
theorem C7_witness :
    loadedAlice.pseudonyms[0]? = some alice ∧
    Event.dial "alice" true ∈ loadedAlice.tick (fun _ _ => dialFails) 5 :=
  ⟨rfl, (C7_dial_again_while_offline (fun _ _ => dialFails) 5 loadedAlice 0 alice rfl).1 rfl⟩

/-- C9: a call of `update` keeps every entry of `openedChats` (the same window
under the same key), appends one entry for each Name of `a.pseudonyms` that is
not yet a key (each such Name once, the window made from the first pseudonym of
the list with that Name), and puts one menu item for each of them in front of
the menu.  So `len(menu.Items) = len(openedChats) + 2` and the separator and
the settings item as the last two items are kept by `update`, and they hold
after `Load` and any number of rounds of the polling loop. -/
theorem C9_update_only_adds_entries (ext : Nat → Ext) (a : App) :
    (a.update ext).1.openedChats.keys
      = a.openedChats.keys ++ newNames a.openedChats.keys a.pseudonyms ∧
    (a.update ext).1.menu
      = (newNames a.openedChats.keys a.pseudonyms).reverse.map ItemRef.chat ++ a.menu ∧
    (newNames a.openedChats.keys a.pseudonyms).Nodup ∧
    (∀ n, n ∈ newNames a.openedChats.keys a.pseudonyms
      ↔ n ∉ a.openedChats.keys ∧ ∃ p ∈ a.pseudonyms, p.Name = n) ∧
    (∀ k c, a.openedChats.lookup k = some c →
      ∃ d, (a.update ext).1.openedChats.lookup k = some d ∧ d.sameWindow c) ∧
    (∀ n ∈ newNames a.openedChats.keys a.pseudonyms,
      ∃ p d, a.pseudonyms.find? (fun x => decide (x.Name = n)) = some p ∧
        (a.update ext).1.openedChats.lookup n = some d ∧ d.madeFrom p) ∧
    (a.menu.length = a.openedChats.length + 2 →
      (a.update ext).1.menu.length = (a.update ext).1.openedChats.length + 2) ∧
    (a.menu.drop a.openedChats.length = [ItemRef.separator, ItemRef.settings] →
      (a.update ext).1.menu.drop (a.update ext).1.openedChats.length
        = [ItemRef.separator, ItemRef.settings]) ∧
    (∀ (getAll : List Pseudonym × Option String) (exts : Nat → Nat → Ext) (n : Nat),
      (App.poll exts n (App.Load getAll NewApp).1).1.menu.length
        = (App.poll exts n (App.Load getAll NewApp).1).1.openedChats.length + 2 ∧
      (App.poll exts n (App.Load getAll NewApp).1).1.menu.drop
          (App.poll exts n (App.Load getAll NewApp).1).1.openedChats.length
        = [ItemRef.separator, ItemRef.settings]) := by
  obtain ⟨-, i2, i3, i4, i5⟩ := loop_frame a.pseudonyms ext a
  have hlen : (a.update ext).1.openedChats.length
      = a.openedChats.length + (newNames a.openedChats.keys a.pseudonyms).length := by
    have := congrArg List.length i2
    simpa [Chats.length_keys] using this
  refine ⟨i2, i3, newNames_nodup _ _, fun n => newNames_mem n _ _, i4, ?_, ?_, ?_, ?_⟩
  · intro n hn
    obtain ⟨hk, p, hp, hpn⟩ := (newNames_mem n _ _).1 hn
    have hnone := (Chats.lookup_eq_none_iff n a.openedChats).2 hk
    cases hf : a.pseudonyms.find? (fun x => decide (x.Name = n)) with
    | none =>
      have := List.find?_eq_none.1 hf p hp
      simp [hpn] at this
    | some q =>
      obtain ⟨d, hd, hm⟩ := i5 _ _ hnone hf
      exact ⟨q, d, rfl, hd, hm⟩
  · intro h
    have e1 : (a.update ext).1.menu = _ := i3
    rw [hlen, e1]
    simp [h]; omega
  · intro h
    have e1 : (a.update ext).1.menu = _ := i3
    rw [hlen, e1, Nat.add_comm, ← List.drop_drop]
    rw [List.drop_left' (by simp)]
    exact h
  · intro getAll exts n
    have hinit : (App.Load getAll NewApp).1.menu
        = (App.Load getAll NewApp).1.openedChats.keys.reverse.map ItemRef.chat
          ++ [ItemRef.separator, ItemRef.settings] := by
      unfold App.Load App.Reload NewApp
      cases getAll.2 <;> rfl
    have hm := poll_menu exts _ hinit n
    constructor
    · rw [hm]; simp [Chats.length_keys]
    · rw [hm]
      rw [List.drop_left' (by simp [Chats.length_keys])]

end Nymgraph
